import Mathlib

/-!
Verification of the chiswick-albion-website crawling and mirroring scripts.

Shallow embedding of the scripts' core logic:
- the liveness classifier `testUrl` (src/url_tester.js, src/full_url_tester.js,
  src/unnamed/part_000, src/unnamed/part_001);
- the URL frontier of `discoverUrls` (src/url_discover.js);
- the pagination probing loops `testMissingSections` (src/unnamed/part_000)
  and `testTargetedSections` (src/unnamed/part_001);
- the `RobustDownloader` page/asset pipeline (src/robust_downloader.js);
- the checkpoint snapshots (`saveProgress` in src/full_url_tester.js).

JavaScript string primitives are modelled over `List Char`, matching the
semantics of the string operations the scripts use (`startsWith`, `includes`,
global literal replacement, `slice`).
-/

namespace ChiswickMirror

/-! ## JavaScript string primitives -/

/-- Model of JavaScript `s.startsWith(pre)`. -/
def jsStartsWith (s pre : String) : Bool :=
  pre.data.isPrefixOf s.data

/-- Helper for `jsIncludes`: does `sub` occur as a contiguous sublist? -/
def containsSub (sub : List Char) : List Char → Bool
  | [] => sub.isEmpty
  | c :: rest => sub.isPrefixOf (c :: rest) || containsSub sub rest

/-- Model of JavaScript `s.includes(sub)`. -/
def jsIncludes (s sub : String) : Bool :=
  containsSub sub.data s.data

/-- Model of JavaScript `Array.prototype.slice(-n)`: the last `n` elements
(all of them when there are fewer than `n`). -/
def jsSliceLast (n : Nat) (l : List α) : List α :=
  l.drop (l.length - n)

/-! ## Liveness classifier

`testUrl` in src/url_tester.js lines 51-66 (the same decision appears in
src/full_url_tester.js lines 69-81, src/unnamed/part_000 lines 31-42 and
src/unnamed/part_001 lines 26-37):

    if (response && response.status() === 200) {
      ...
      if (bodyText.length > 5 || (title && title.length > 0 && title !== 'Untitled')) {
        return { success: true, ... };
      } else { return { success: false, ... }; }
    }
    return { success: false, ... };
-/

/-- Outcome of a fetch, as observed by the classifier: HTTP status, page
title and trimmed rendered body text. -/
structure FetchOutcome where
  status : Nat
  title : String
  bodyText : String

/-- The liveness decision of `testUrl` on a fetch outcome that did not raise
a navigation error.  `title && title.length > 0` in JavaScript is the
conjunction of truthiness (non-emptiness) with a positive length check. -/
def testUrlAccepts (r : FetchOutcome) : Bool :=
  if r.status = 200 then
    if r.bodyText.length > 5 ∨ (r.title ≠ "" ∧ r.title.length > 0 ∧ r.title ≠ "Untitled")
    then true else false
  else false

/-! ## Output filename generation

`RobustDownloader.generateFilename`, src/robust_downloader.js lines 226-229:

    const safeSectionName = sectionName.replace(/[^a-zA-Z0-9]/g, '_');
    return pageNumber === 0 ? safeSectionName : safeSectionName + '_page' + pageNumber;
-/

/-- Model of `sectionName.replace(/[^a-zA-Z0-9]/g, '_')`: every character
outside `[a-zA-Z0-9]` becomes an underscore. -/
def sanitizeSectionName (s : String) : String :=
  String.mk (s.data.map (fun c => if c.isAlphanum then c else '_'))

/-- Model of `RobustDownloader.generateFilename`. -/
def generateFilename (sectionName : String) (pageNumber : Nat) : String :=
  let safeSectionName := sanitizeSectionName sectionName
  if pageNumber = 0 then safeSectionName
  else safeSectionName ++ "_page" ++ toString pageNumber

/-! ## Theorems -/

/-- Helper: a string is nonempty exactly when its length is positive. -/
theorem string_ne_empty_iff_length_pos (s : String) : s ≠ "" ↔ 0 < s.length := by
  cases s with
  | mk data =>
    constructor
    · intro h
      cases data with
      | nil => exact absurd rfl h
      | cons c cs => simp [String.length]
    · intro h hEq
      rw [hEq] at h
      simp [String.length] at h

/-- C1: applied to a fetch outcome with HTTP status 200, the classifier
accepts exactly when the rendered text has length strictly greater than 5
OR the title is non-empty and not equal to "Untitled"; with empty text it
rejects title "Untitled" and accepts title "Club Honours". -/
theorem C1_classifier_boundary :
    (∀ title bodyText : String,
      testUrlAccepts ⟨200, title, bodyText⟩ = true ↔
        (bodyText.length > 5 ∨ (title ≠ "" ∧ title ≠ "Untitled"))) ∧
    testUrlAccepts ⟨200, "Untitled", ""⟩ = false ∧
    testUrlAccepts ⟨200, "Club Honours", ""⟩ = true := by
  refine ⟨fun title bodyText => ?_, by decide, by decide⟩
  have hbase : testUrlAccepts ⟨200, title, bodyText⟩ = true ↔
      (bodyText.length > 5 ∨ (title ≠ "" ∧ title.length > 0 ∧ title ≠ "Untitled")) := by
    unfold testUrlAccepts
    simp only [if_pos rfl]
    by_cases h : bodyText.length > 5 ∨ (title ≠ "" ∧ title.length > 0 ∧ title ≠ "Untitled")
    · simp [h]
    · simp [h]
  rw [hbase]
  have hlen := string_ne_empty_iff_length_pos title
  constructor
  · rintro (h5 | ⟨hne, _, hnu⟩)
    exacts [Or.inl h5, Or.inr ⟨hne, hnu⟩]
  · rintro (h5 | ⟨hne, hnu⟩)
    exacts [Or.inl h5, Or.inr ⟨hne, hlen.mp hne, hnu⟩]

/-- C9: the output filename is a deterministic function of section name and
page number: sanitized section name for page 0, sanitized name plus
`_pageN` for page N > 0; in particular for section "season2022". -/
theorem C9_filename_determinism :
    (∀ s : String, generateFilename s 0 = sanitizeSectionName s) ∧
    (∀ (s : String) (n : Nat), n ≠ 0 →
      generateFilename s n = sanitizeSectionName s ++ "_page" ++ toString n) ∧
    generateFilename "season2022" 0 = "season2022" ∧
    generateFilename "season2022" 5 = "season2022_page5" := by
  refine ⟨fun s => rfl, fun s n hn => ?_, by decide, by decide⟩
  unfold generateFilename
  simp [hn]

/-- Witness for C9 at section "honours" and page 7. -/
theorem C9_filename_determinism_witness :
    generateFilename "honours" 7 = sanitizeSectionName "honours" ++ "_page" ++ toString 7 :=
  C9_filename_determinism.2.1 "honours" 7 (by decide)

/-! ## URL frontier

`discoverUrls` in src/url_discover.js keeps the pair of a visited set and a
pending queue:

    while (urlQueue.length > 0) {
      const currentUrl = urlQueue.shift();
      if (visitedUrls.has(currentUrl)) { continue; }
      visitedUrls.add(currentUrl);
      ... fetch ...
      for (const link of links) {
        if (!visitedUrls.has(link) && !urlQueue.includes(link)) {
          urlQueue.push(link);
          ...
        }
      }
    }
-/

/-- State of the URL frontier: visited set and pending FIFO queue. -/
structure Frontier where
  visitedUrls : List String
  urlQueue : List String

/-- The enqueue guard of src/url_discover.js lines 104-110: a link is pushed
to the queue only if it is neither already visited nor already queued. -/
def enqueueStep (s : Frontier) (url : String) : Frontier :=
  if url ∈ s.visitedUrls ∨ url ∈ s.urlQueue then s
  else { s with urlQueue := s.urlQueue ++ [url] }

/-- One iteration of the frontier pop of src/url_discover.js lines 30-39:
`shift` the queue head; skip it when already visited (`continue`), otherwise
mark it visited before it is fetched and return it. -/
def nextStep (s : Frontier) : Option String × Frontier :=
  match s.urlQueue with
  | [] => (none, s)
  | u :: rest =>
    if u ∈ s.visitedUrls then (none, { s with urlQueue := rest })
    else (some u, { visitedUrls := u :: s.visitedUrls, urlQueue := rest })

/-- An operation performed on the frontier during a run. -/
inductive FrontierOp where
  | enq (url : String)
  | next

/-- Run a sequence of frontier operations, collecting the URLs returned by
`next` in order. -/
def runOps : Frontier → List FrontierOp → List String
  | _, [] => []
  | s, FrontierOp.enq u :: ops => runOps (enqueueStep s u) ops
  | s, FrontierOp.next :: ops =>
    match nextStep s with
    | (some u, s') => u :: runOps s' ops
    | (none, s') => runOps s' ops

/-- Helper invariant: every URL returned during a run is freshly visited at
the moment of its return, so the returned URLs avoid the starting visited
set and contain no duplicates. -/
theorem runOps_nodup_aux (ops : List FrontierOp) :
    ∀ s : Frontier,
      (runOps s ops).Nodup ∧ ∀ u ∈ runOps s ops, u ∉ s.visitedUrls := by
  induction ops with
  | nil => intro s; simp [runOps]
  | cons op ops ih =>
    intro s
    cases op with
    | enq url =>
      have h := ih (enqueueStep s url)
      have hvis : (enqueueStep s url).visitedUrls = s.visitedUrls := by
        unfold enqueueStep
        split <;> rfl
      refine ⟨h.1, fun u hu => ?_⟩
      have := h.2 u (by simpa [runOps] using hu)
      rw [hvis] at this
      simpa [runOps] using fun hcontra => this.elim (by simpa [runOps] using hcontra)
    | next =>
      cases hq : s.urlQueue with
      | nil =>
        have h := ih s
        constructor
        · simpa [runOps, nextStep, hq] using h.1
        · intro u hu
          exact h.2 u (by simpa [runOps, nextStep, hq] using hu)
      | cons v rest =>
        by_cases hv : v ∈ s.visitedUrls
        · have h := ih { s with urlQueue := rest }
          constructor
          · simpa [runOps, nextStep, hq, hv] using h.1
          · intro u hu
            exact h.2 u (by simpa [runOps, nextStep, hq, hv] using hu)
        · have h := ih { visitedUrls := v :: s.visitedUrls, urlQueue := rest }
          have hrun : runOps s (FrontierOp.next :: ops) =
              v :: runOps { visitedUrls := v :: s.visitedUrls, urlQueue := rest } ops := by
            simp [runOps, nextStep, hq, hv]
          constructor
          · rw [hrun]
            refine List.nodup_cons.mpr ⟨fun hmem => ?_, h.1⟩
            exact (h.2 v hmem) (by simp)
          · intro u hu
            rw [hrun] at hu
            rcases List.mem_cons.mp hu with rfl | hu'
            · exact hv
            · have := h.2 u hu'
              intro hmem
              exact this (by simp [hmem])

/-- C2: for every interleaved sequence of enqueue and next operations in a
single run (empty initial visited set, arbitrary seed queue), no URL is
returned by next() more than once; moreover enqueue is a no-op on a URL
already visited or already queued, and next marks the URL it returns as
visited in the post-state, before any fetch happens. -/
theorem C2_at_most_once_visitation :
    (∀ (seeds : List String) (ops : List FrontierOp),
      (runOps ⟨[], seeds⟩ ops).Nodup) ∧
    (∀ (s : Frontier) (url : String),
      url ∈ s.visitedUrls ∨ url ∈ s.urlQueue → enqueueStep s url = s) ∧
    (∀ (s s' : Frontier) (u : String),
      nextStep s = (some u, s') → u ∈ s'.visitedUrls) := by
  refine ⟨fun seeds ops => (runOps_nodup_aux ops ⟨[], seeds⟩).1,
    fun s url h => by simp [enqueueStep, h], fun s s' u h => ?_⟩
  unfold nextStep at h
  cases hq : s.urlQueue with
  | nil => rw [hq] at h; simp at h
  | cons v rest =>
    rw [hq] at h
    by_cases hv : v ∈ s.visitedUrls
    · simp [hv] at h
    · simp [hv] at h
      rcases h with ⟨rfl, rfl⟩
      simp

/-- Witness for C2 at a concrete run: seeds [a, b], with a discovering b and
a again; b is returned exactly once. -/
theorem C2_at_most_once_visitation_witness :
    (runOps ⟨[], ["a/", "b/"]⟩
      [FrontierOp.next, FrontierOp.enq "b/", FrontierOp.enq "a/",
       FrontierOp.next, FrontierOp.next]).Nodup ∧
    enqueueStep ⟨["a/"], []⟩ "a/" = ⟨["a/"], []⟩ ∧
    "a/" ∈ (Frontier.visitedUrls ⟨["a/"], []⟩) := by
  refine ⟨C2_at_most_once_visitation.1 ["a/", "b/"] _,
    C2_at_most_once_visitation.2.1 ⟨["a/"], []⟩ "a/" (Or.inl (by simp)),
    C2_at_most_once_visitation.2.2 ⟨[], ["a/"]⟩ ⟨["a/"], []⟩ "a/" (by simp [nextStep])⟩

/-! ## Pagination probing

The per-section probing loop of `testMissingSections` (src/unnamed/part_000
lines 75-113) and `testTargetedSections` (src/unnamed/part_001 lines
96-140):

    for (let pageNum = 1; pageNum <= config.maxPagesToTest; pageNum++) {
      const result = await testUrl(page, pageUrl);
      if (result.success) { ...; foundAnyPages = true; consecutiveFailures = 0; }
      else {
        consecutiveFailures++;
        if (foundAnyPages && consecutiveFailures >= 5) { break; }
        if (!foundAnyPages && consecutiveFailures >= 10) { break; }   // 8 in part_001
      }
    }

`part_000` uses maxPagesToTest = 25 and thresholds (5, 10) with
foundAnyPages initially false; `part_001` uses maxPagesToTest = 30 and
thresholds (5, 8) with foundAnyPages initialised from the base page probe.
-/

/-- The probing loop, parameterised by the acceptance oracle and by the two
consecutive-failure thresholds.  `remaining` counts the loop iterations left
(`maxPagesToTest - pageNum + 1` at entry); the result is the list of page
numbers actually probed, in order. -/
def probeFrom (accept : Nat → Bool) (stopFound stopNotFound : Nat) :
    Nat → Nat → Nat → Bool → List Nat
  | 0, _, _, _ => []
  | remaining + 1, pageNum, cf, found =>
    if accept pageNum then
      pageNum :: probeFrom accept stopFound stopNotFound remaining (pageNum + 1) 0 true
    else
      let cfNew := cf + 1
      if found = true ∧ stopFound ≤ cfNew then [pageNum]
      else if found = false ∧ stopNotFound ≤ cfNew then [pageNum]
      else pageNum :: probeFrom accept stopFound stopNotFound remaining (pageNum + 1) cfNew found

/-- The pages probed for one section by `testMissingSections`
(src/unnamed/part_000): thresholds 5 and 10, pages 1..25, nothing found
initially. -/
def testMissingSectionsProbe (accept : Nat → Bool) : List Nat :=
  probeFrom accept 5 10 25 1 0 false

/-- The pages probed for one section by `testTargetedSections`
(src/unnamed/part_001): thresholds 5 and 8, pages 1..30, `foundAnyPages`
initialised from the base page probe. -/
def testTargetedSectionsProbe (accept : Nat → Bool) (baseSuccess : Bool) : List Nat :=
  probeFrom accept 5 8 30 1 0 baseSuccess

/-- C4: with M = 5, if pages 1 and 2 are accepted and pages 3 through 7
all reject, probing stops at page 7 and never probes page 8 — in both
probing scripts, whatever the base-page outcome in the targeted script. -/
theorem C4_pagination_early_stop (accept : Nat → Bool)
    (h1 : accept 1 = true) (h2 : accept 2 = true)
    (h3 : accept 3 = false) (h4 : accept 4 = false) (h5 : accept 5 = false)
    (h6 : accept 6 = false) (h7 : accept 7 = false) :
    testMissingSectionsProbe accept = [1, 2, 3, 4, 5, 6, 7] ∧
    (∀ b : Bool, testTargetedSectionsProbe accept b = [1, 2, 3, 4, 5, 6, 7]) ∧
    8 ∉ testMissingSectionsProbe accept := by
  have hmiss : testMissingSectionsProbe accept = [1, 2, 3, 4, 5, 6, 7] := by
    unfold testMissingSectionsProbe
    simp [probeFrom, h1, h2, h3, h4, h5, h6, h7]
  refine ⟨hmiss, fun b => ?_, by rw [hmiss]; decide⟩
  unfold testTargetedSectionsProbe
  cases b <;> simp [probeFrom, h1, h2, h3, h4, h5, h6, h7]

/-- Witness for C4 with the oracle accepting exactly pages 1 and 2. -/
theorem C4_pagination_early_stop_witness :
    testMissingSectionsProbe (fun n => decide (n ≤ 2)) = [1, 2, 3, 4, 5, 6, 7] ∧
    (∀ b : Bool, testTargetedSectionsProbe (fun n => decide (n ≤ 2)) b
      = [1, 2, 3, 4, 5, 6, 7]) ∧
    8 ∉ testMissingSectionsProbe (fun n => decide (n ≤ 2)) :=
  C4_pagination_early_stop (fun n => decide (n ≤ 2))
    (by decide) (by decide) (by decide) (by decide) (by decide) (by decide) (by decide)

/-- C7 counterexample: with no page ever accepted, `testMissingSections`
probes pages 1 through 10 — it keeps probing well past 5 consecutive
failures, so the no-acceptance threshold (10) is larger than M = 5, not
smaller as the claim states. -/
theorem C7_counterexample :
    testMissingSectionsProbe (fun _ => false) = [1, 2, 3, 4, 5, 6, 7, 8, 9, 10] ∧
    ¬ (testMissingSectionsProbe (fun _ => false)).length ≤ 5 := by
  constructor
  · unfold testMissingSectionsProbe
    simp [probeFrom]
  · unfold testMissingSectionsProbe
    simp [probeFrom]

/-- C7 amended: when no page has yet been accepted, probing stops only
after a LARGER threshold of consecutive failures than the threshold M = 5
used once a page has been accepted: 10 consecutive failures in
`testMissingSections` and 8 in `testTargetedSections`. -/
theorem C7_no_acceptance_threshold :
    testMissingSectionsProbe (fun _ => false) = List.range' 1 10 ∧
    testTargetedSectionsProbe (fun _ => false) false = List.range' 1 8 ∧
    5 < 10 ∧ 5 < 8 := by
  refine ⟨?_, ?_, by decide, by decide⟩
  · unfold testMissingSectionsProbe
    simp [probeFrom]
    decide
  · unfold testTargetedSectionsProbe
    simp [probeFrom]
    decide

/-! ## Whole-page download retry

`RobustDownloader.downloadPage` (src/robust_downloader.js lines 99-158):

    async downloadPage(urlData, attempt = 1) {
      try { ... navigate, save ... ; this.stats.downloaded++; ... }
      catch (error) {
        if (attempt < config.retryAttempts) {
          await new Promise(resolve => setTimeout(resolve, 2000));
          return this.downloadPage(urlData, attempt + 1);
        } else {
          this.failedUrls.push({ url, error: error.message });
          this.stats.failed++;
          return { success: false, url, error: error.message };
        }
      }
    }

with `config.retryAttempts = 3`, and the run loop (lines 269-281) that
awaits `downloadPage` for every URL in sequence.
-/

/-- Configured retry attempt count, src/robust_downloader.js line 14. -/
def retryAttempts : Nat := 3

/-- Fixed backoff delay in milliseconds, src/robust_downloader.js line 150. -/
def retryDelayMs : Nat := 2000

/-- The downloader's accumulator state relevant to retries: the failed-URL
list, the set of downloaded URLs, and the two counters. -/
structure DownloadState where
  failedUrls : List (String × String)
  downloadedUrls : List String
  downloaded : Nat
  failed : Nat

/-- One whole-page download with retries.  The fetch oracle maps the attempt
number to either a navigation error message or success.  Returns the success
flag, the updated state, and the list of backoff delays inserted between
attempts. -/
def downloadPageRec (fetch : Nat → Except String Unit) (url : String)
    (st : DownloadState) (attempt : Nat) : Bool × DownloadState × List Nat :=
  match fetch attempt with
  | Except.ok _ =>
    (true, { st with downloadedUrls := st.downloadedUrls ++ [url],
                     downloaded := st.downloaded + 1 }, [])
  | Except.error msg =>
    if h : attempt < retryAttempts then
      let r := downloadPageRec fetch url st (attempt + 1)
      (r.1, r.2.1, retryDelayMs :: r.2.2)
    else
      (false, { st with failedUrls := st.failedUrls ++ [(url, msg)],
                        failed := st.failed + 1 }, [])
termination_by retryAttempts - attempt
decreasing_by omega

/-- The sequential run loop of `RobustDownloader.run`: every URL is
downloaded (with retries) in order, whatever the outcomes of the previous
ones. -/
def runDownloads (fetch : String → Nat → Except String Unit) :
    List String → DownloadState → DownloadState × List Bool
  | [], st => (st, [])
  | url :: rest, st =>
    let r := downloadPageRec (fetch url) url st 1
    let rec' := runDownloads fetch rest r.2.1
    (rec'.1, r.1 :: rec'.2)

/-- C5: a whole-page download that fails on all three configured attempts
inserts the fixed 2000 ms backoff between consecutive attempts, appends the
URL to the failed-URL list with the final error, and returns an unsuccessful
result instead of aborting; the run loop still produces one result per URL,
so a single page's exhausted retries never abort the run. -/
theorem C5_retry_and_continue :
    (∀ (fetch : Nat → Except String Unit) (url : String) (st : DownloadState)
      (e1 e2 e3 : String),
      fetch 1 = Except.error e1 → fetch 2 = Except.error e2 →
      fetch 3 = Except.error e3 →
      downloadPageRec fetch url st 1 =
        (false,
         { st with failedUrls := st.failedUrls ++ [(url, e3)],
                   failed := st.failed + 1 },
         [retryDelayMs, retryDelayMs])) ∧
    (∀ (fetch : String → Nat → Except String Unit) (urls : List String)
      (st : DownloadState),
      (runDownloads fetch urls st).2.length = urls.length) := by
  constructor
  · intro fetch url st e1 e2 e3 h1 h2 h3
    rw [downloadPageRec, h1]
    simp only [retryAttempts, Nat.lt_irrefl, reduceDIte, show (1 : Nat) < 3 by decide,
      dite_true]
    rw [downloadPageRec, h2]
    simp only [show (2 : Nat) < 3 by decide, dite_true]
    rw [downloadPageRec, h3]
    simp [retryAttempts]
  · intro fetch urls
    induction urls with
    | nil => intro st; rfl
    | cons url rest ih =>
      intro st
      simp [runDownloads, ih]

/-- Witness for C5: a fetch oracle that always times out, on a two-URL run
starting from the empty state. -/
theorem C5_retry_and_continue_witness :
    downloadPageRec (fun _ => Except.error "timeout") "a/" ⟨[], [], 0, 0⟩ 1 =
      (false, { failedUrls := [("a/", "timeout")], downloadedUrls := [],
                downloaded := 0, failed := 1 }, [retryDelayMs, retryDelayMs]) ∧
    (runDownloads (fun _ _ => Except.error "timeout") ["a/", "b/"]
      ⟨[], [], 0, 0⟩).2.length = 2 :=
  ⟨C5_retry_and_continue.1 (fun _ => Except.error "timeout") "a/" ⟨[], [], 0, 0⟩
      "timeout" "timeout" "timeout" rfl rfl rfl,
   C5_retry_and_continue.2 (fun _ _ => Except.error "timeout") ["a/", "b/"]
      ⟨[], [], 0, 0⟩⟩

/-! ## URL normalization

The link-normalizing step of `discoverUrls` (src/url_discover.js lines
82-102), applied to each raw href against the current page URL:

    if (href.startsWith('/')) {
      href = 'https://0002n8y.wcomhost.com' + href;
    } else if (href.startsWith('../') || !href.includes('://')) {
      href = baseUrl + href;          // baseUrl = the current page URL
    }
    ... .filter(href => href && href.startsWith('https://0002n8y.wcomhost.com/website/'))
        .map(href => href.replace('https://0002n8y.wcomhost.com/website/', ''));

Note the `../` and bare-segment branches simply CONCATENATE the href onto
the page URL; no dot-segment resolution is performed.
-/

/-- Site origin, src/url_discover.js line 90. -/
def siteOrigin : String := "https://0002n8y.wcomhost.com"

/-- Site base against which internal URLs are identified, src/url_discover.js
lines 98-99. -/
def siteBase : String := "https://0002n8y.wcomhost.com/website/"

/-- Model of the normalizing step: `none` when the href is absent or
resolves off-site, otherwise the base-relative string.  `replace(base, '')`
removes the first occurrence of the base; under the `startsWith` guard this
equals dropping the prefix. -/
def normalizeHref (pageUrl href : String) : Option String :=
  if href = "" then none
  else
    let abs :=
      if jsStartsWith href "/" then siteOrigin ++ href
      else if jsStartsWith href "../" || !(jsIncludes href "://") then pageUrl ++ href
      else href
    if jsStartsWith abs siteBase then some (String.mk (abs.data.drop siteBase.data.length))
    else none

/-- C6 counterexample: against the page
`https://0002n8y.wcomhost.com/website/everyplayer/`, the absolute spelling
and the `../`-relative spelling of `honours/` denote the same resource but
normalize to different base-relative strings, because `../` is concatenated,
not resolved. -/
theorem C6_counterexample :
    normalizeHref "https://0002n8y.wcomhost.com/website/everyplayer/"
        "https://0002n8y.wcomhost.com/website/honours/" = some "honours/" ∧
    normalizeHref "https://0002n8y.wcomhost.com/website/everyplayer/"
        "../honours/" = some "everyplayer/../honours/" ∧
    normalizeHref "https://0002n8y.wcomhost.com/website/everyplayer/"
        "https://0002n8y.wcomhost.com/website/honours/" ≠
      normalizeHref "https://0002n8y.wcomhost.com/website/everyplayer/"
        "../honours/" := by
  refine ⟨by decide, by decide, by decide⟩

/-- C6 amended: normalization is invariant only across spellings whose
branch outputs concatenate to the same absolute string — the fully absolute
spelling, the slash-rooted spelling, and the bare-segment spelling against
the site base page all normalize to the same base-relative string (shown for
`honours/`), whereas a `../`-relative spelling is concatenated without
dot-segment resolution and yields a different string. -/
theorem C6_normalization_invariance :
    normalizeHref "https://0002n8y.wcomhost.com/website/everyplayer/"
        "https://0002n8y.wcomhost.com/website/honours/" = some "honours/" ∧
    normalizeHref "https://0002n8y.wcomhost.com/website/everyplayer/"
        "/website/honours/" = some "honours/" ∧
    normalizeHref "https://0002n8y.wcomhost.com/website/" "honours/" = some "honours/" ∧
    normalizeHref "https://0002n8y.wcomhost.com/website/everyplayer/"
        "../honours/" = some "everyplayer/../honours/" := by
  refine ⟨by decide, by decide, by decide, by decide⟩

/-! ## Mirror writer: asset download and HTML rewriting

`RobustDownloader` (src/robust_downloader.js).  The per-page pipeline of
`downloadPage` (lines 116-130) runs, in this order:

    const htmlContent = await this.page.content();
    const images = await this.extractImages();
    const filename = this.generateFilename(sectionName, pageNumber);
    const processedHtml = this.processHtmlContent(htmlContent, images);
    await fs.writeFile(htmlPath, processedHtml);
    const downloadedImages = await this.downloadImages(images);

so the markup is rewritten and written to disk BEFORE this page's images
are downloaded; `processHtmlContent` (lines 214-224) substitutes only the
sources present in `this.imageMapping` at that moment, i.e. those recorded
by previous pages.  `downloadImages` (lines 173-212) skips empty and
`data:` sources, fetches each remaining source, and on success writes the
file and records originalSrc -> local path in the mapping.
-/

/-- One `img[src]` element as captured by `extractImages`: the resolved
`img.src` and the raw `src` attribute. -/
structure ImageData where
  src : String
  originalSrc : String

/-- One successfully downloaded asset. -/
structure DownloadedImage where
  originalSrc : String
  newPath : String
  filename : String
  size : Nat

/-- Model of JavaScript `Map.prototype.set` on an insertion-ordered
association list: overwrite in place when the key exists, append
otherwise. -/
def mapSet : List (String × String) → String → String → List (String × String)
  | [], k, v => [(k, v)]
  | (k0, v0) :: rest, k, v =>
    if k0 = k then (k, v) :: rest else (k0, v0) :: mapSet rest k v

/-- The skip guard of `downloadImages`, src/robust_downloader.js line 179:
`if (!imageUrl || imageUrl.startsWith('data:')) continue;`. -/
def skipImage (img : ImageData) : Bool :=
  img.src == "" || jsStartsWith img.src "data:"

/-- The single-quote character. -/
def squoteChar : Char := Char.ofNat 39

/-- Model of the regex `\.([a-zA-Z0-9]+)(?:\?|$)` of `getImageExtension`
(src/robust_downloader.js lines 231-234): the first dot followed by a
nonempty alphanumeric run that ends at a question mark or at the end of
the string. -/
def extMatchAux : List Char → Option (List Char)
  | [] => none
  | c :: rest =>
    if c = '.' then
      let run := rest.takeWhile (fun ch => ch.isAlphanum)
      let after := rest.drop run.length
      if run ≠ [] ∧ (after = [] ∨ after.head? = some '?') then some run
      else extMatchAux rest
    else extMatchAux rest

/-- Model of `RobustDownloader.getImageExtension`: the matched extension
lower-cased, defaulting to `jpg`. -/
def getImageExtension (url : String) : String :=
  match extMatchAux url.data with
  | some run => String.mk (run.map Char.toLower)
  | none => "jpg"

/-- The four concrete spellings matched by the regex
`src=["']<escaped source>["']` of `processHtmlContent`
(src/robust_downloader.js line 219); all four have the same length. -/
def srcPatterns (originalSrc : String) : List (List Char) :=
  [("src=\"" ++ originalSrc ++ "\"").data,
   ("src=\"" ++ originalSrc).data ++ [squoteChar],
   "src=".data ++ [squoteChar] ++ originalSrc.data ++ "\"".data,
   "src=".data ++ [squoteChar] ++ originalSrc.data ++ [squoteChar]]

/-- Left-to-right, non-overlapping global replacement of any of the
patterns by `rep`, the semantics of `String.prototype.replace` with a /g
regex that is an alternation of same-length literal patterns.  All patterns
used are nonempty (they contain at least `src=` and two quotes). -/
def replaceMultiAux (pats : List (List Char)) (rep : List Char) : List Char → List Char
  | [] => []
  | c :: rest =>
    match pats.find? (fun p => p.isPrefixOf (c :: rest)) with
    | some p => rep ++ replaceMultiAux pats rep (rest.drop (p.length - 1))
    | none => c :: replaceMultiAux pats rep rest
termination_by l => l.length
decreasing_by
  · simp only [List.length_drop, List.length_cons]
    omega
  · simp

/-- Substitute one mapped source: every occurrence of
`src=["']originalSrc["']` becomes `src="newPath"`. -/
def rewriteSrcOnce (html : String) (originalSrc newPath : String) : String :=
  String.mk (replaceMultiAux (srcPatterns originalSrc)
    ("src=\"" ++ newPath ++ "\"").data html.data)

/-- Model of `RobustDownloader.processHtmlContent`: fold the substitution
over the image mapping in insertion order. -/
def processHtmlContent (imageMapping : List (String × String)) (htmlContent : String) : String :=
  imageMapping.foldl (fun html p => rewriteSrcOnce html p.1 p.2) htmlContent

/-- Model of the loop body of `RobustDownloader.downloadImages`.  `net`
is the asset fetch oracle (`page.goto` + `ok()` + `buffer()`): `some size`
on a successful download of that many bytes, `none` when the response is
not ok or the fetch throws.  Accumulates the downloaded-image list, the
image mapping, and the list of source URLs for which a fetch was
attempted. -/
def downloadImagesLoop (net : String → Option Nat) (md5hex8 : String → String) :
    List ImageData → List DownloadedImage → List (String × String) → List String →
    List DownloadedImage × List (String × String) × List String
  | [], dl, m, fetched => (dl, m, fetched)
  | img :: rest, dl, m, fetched =>
    if skipImage img then downloadImagesLoop net md5hex8 rest dl m fetched
    else
      match net img.src with
      | some size =>
        let imageFilename := "img" ++ toString dl.length ++ "_" ++ md5hex8 img.src
          ++ "." ++ getImageExtension img.src
        let newPath := "assets/images/" ++ imageFilename
        downloadImagesLoop net md5hex8 rest
          (dl ++ [{ originalSrc := img.originalSrc, newPath := newPath,
                    filename := imageFilename, size := size }])
          (mapSet m img.originalSrc newPath)
          (fetched ++ [img.src])
      | none => downloadImagesLoop net md5hex8 rest dl m (fetched ++ [img.src])

/-- The per-page pipeline of `RobustDownloader.downloadPage` in source
order: the markup is processed against the mapping as it stands BEFORE the
page's assets are downloaded, then the page's images are downloaded.
Returns the written markup, the downloaded-image records, and the updated
mapping. -/
def downloadPagePipeline (net : String → Option Nat) (md5hex8 : String → String)
    (imageMapping : List (String × String)) (htmlContent : String)
    (images : List ImageData) :
    String × List DownloadedImage × List (String × String) :=
  let processedHtml := processHtmlContent imageMapping htmlContent
  let r := downloadImagesLoop net md5hex8 images [] imageMapping []
  (processedHtml, r.1, r.2.1)

/-- Helper: any key of `mapSet m k v` is a key of `m` or is `k`. -/
theorem mapSet_keys_sub (m : List (String × String)) (k v x : String) :
    x ∈ (mapSet m k v).map Prod.fst → x ∈ m.map Prod.fst ∨ x = k := by
  induction m with
  | nil =>
    intro h
    rw [show mapSet [] k v = [(k, v)] from rfl, List.map_cons, List.map_nil,
      List.mem_cons] at h
    rcases h with rfl | h
    · exact Or.inr rfl
    · exact absurd h (List.not_mem_nil x)
  | cons p rest ih =>
    rcases p with ⟨k0, v0⟩
    intro h
    by_cases hk : k0 = k
    · rw [show mapSet ((k0, v0) :: rest) k v = (k, v) :: rest by simp [mapSet, hk],
        List.map_cons, List.mem_cons] at h
      rcases h with rfl | h
      · exact Or.inr rfl
      · exact Or.inl (by rw [List.map_cons, List.mem_cons]; exact Or.inr h)
    · rw [show mapSet ((k0, v0) :: rest) k v = (k0, v0) :: mapSet rest k v by
        simp [mapSet, hk], List.map_cons, List.mem_cons] at h
      rcases h with rfl | h
      · exact Or.inl (by rw [List.map_cons, List.mem_cons]; exact Or.inl rfl)
      · rcases ih h with h0 | rfl
        · exact Or.inl (by rw [List.map_cons, List.mem_cons]; exact Or.inr h0)
        · exact Or.inr rfl

/-- Helper: `Map.set` with a fresh key appends the pair. -/
theorem mapSet_fresh (m : List (String × String)) (k v : String)
    (h : k ∉ m.map Prod.fst) : mapSet m k v = m ++ [(k, v)] := by
  induction m with
  | nil => rfl
  | cons p rest ih =>
    rcases p with ⟨k0, v0⟩
    have hk : ¬ k0 = k := by
      intro hEq
      exact h (by simp [hEq])
    simp [mapSet, hk]
    exact ih (fun hmem => h (by simp [hmem]))

/-- Helper: the download loop behaves identically on the image list with
the skipped (empty or `data:`) sources removed. -/
theorem downloadImagesLoop_skips (net : String → Option Nat) (md5hex8 : String → String)
    (images : List ImageData) :
    ∀ (dl : List DownloadedImage) (m : List (String × String)) (fetched : List String),
      downloadImagesLoop net md5hex8 images dl m fetched =
        downloadImagesLoop net md5hex8 (images.filter (fun i => !skipImage i)) dl m fetched := by
  induction images with
  | nil => intro dl m f; rfl
  | cons img rest ih =>
    intro dl m f
    cases hs : skipImage img with
    | true => simp [downloadImagesLoop, hs, List.filter_cons, ih]
    | false =>
      cases hnet : net img.src <;>
        simp [downloadImagesLoop, hs, hnet, List.filter_cons, ih]

/-- Helper: the sources for which a fetch is attempted are exactly the
non-skipped sources, in order. -/
theorem downloadImagesLoop_fetched (net : String → Option Nat) (md5hex8 : String → String)
    (images : List ImageData) :
    ∀ (dl : List DownloadedImage) (m : List (String × String)) (fetched : List String),
      (downloadImagesLoop net md5hex8 images dl m fetched).2.2 =
        fetched ++ (images.filter (fun i => !skipImage i)).map ImageData.src := by
  induction images with
  | nil => intro dl m f; simp [downloadImagesLoop]
  | cons img rest ih =>
    intro dl m f
    cases hs : skipImage img with
    | true => simp [downloadImagesLoop, hs, List.filter_cons, ih]
    | false =>
      cases hnet : net img.src <;>
        simp [downloadImagesLoop, hs, hnet, List.filter_cons, ih]

/-- Helper: the loop adds mapping entries only for non-skipped sources. -/
theorem downloadImagesLoop_keys (net : String → Option Nat) (md5hex8 : String → String)
    (images : List ImageData) :
    ∀ (dl : List DownloadedImage) (m : List (String × String)) (fetched : List String)
      (k : String),
      k ∈ ((downloadImagesLoop net md5hex8 images dl m fetched).2.1).map Prod.fst →
        k ∈ m.map Prod.fst ∨
          k ∈ (images.filter (fun i => !skipImage i)).map ImageData.originalSrc := by
  induction images with
  | nil =>
    intro dl m f k h
    exact Or.inl h
  | cons img rest ih =>
    intro dl m f k h
    cases hs : skipImage img with
    | true =>
      have hfc : (img :: rest).filter (fun i => !skipImage i)
          = rest.filter (fun i => !skipImage i) := by
        simp [List.filter_cons, hs]
      have hstep : downloadImagesLoop net md5hex8 (img :: rest) dl m f
          = downloadImagesLoop net md5hex8 rest dl m f := by
        simp [downloadImagesLoop, hs]
      rw [hstep] at h
      rw [hfc]
      exact ih dl m f k h
    | false =>
      cases hnet : net img.src with
      | some size =>
        have hfc : (img :: rest).filter (fun i => !skipImage i)
            = img :: rest.filter (fun i => !skipImage i) := by
          simp [List.filter_cons, hs]
        have hstep : downloadImagesLoop net md5hex8 (img :: rest) dl m f
            = downloadImagesLoop net md5hex8 rest
                (dl ++ [(⟨img.originalSrc,
                  "assets/images/" ++ ("img" ++ toString dl.length ++ "_"
                    ++ md5hex8 img.src ++ "." ++ getImageExtension img.src),
                  "img" ++ toString dl.length ++ "_" ++ md5hex8 img.src
                    ++ "." ++ getImageExtension img.src,
                  size⟩ : DownloadedImage)])
                (mapSet m img.originalSrc
                  ("assets/images/" ++ ("img" ++ toString dl.length ++ "_"
                    ++ md5hex8 img.src ++ "." ++ getImageExtension img.src)))
                (f ++ [img.src]) := by
          simp [downloadImagesLoop, hs, hnet]
        rw [hstep] at h
        rcases ih _ _ _ k h with hm | hr
        · rcases mapSet_keys_sub m img.originalSrc _ k hm with h0 | rfl
          · exact Or.inl h0
          · refine Or.inr ?_
            rw [hfc, List.map_cons, List.mem_cons]
            exact Or.inl rfl
        · refine Or.inr ?_
          rw [hfc, List.map_cons, List.mem_cons]
          exact Or.inr hr
      | none =>
        have hfc : (img :: rest).filter (fun i => !skipImage i)
            = img :: rest.filter (fun i => !skipImage i) := by
          simp [List.filter_cons, hs]
        have hstep : downloadImagesLoop net md5hex8 (img :: rest) dl m f
            = downloadImagesLoop net md5hex8 rest dl m (f ++ [img.src]) := by
          simp [downloadImagesLoop, hs, hnet]
        rw [hstep] at h
        rcases ih dl m _ k h with hm | hr
        · exact Or.inl hm
        · refine Or.inr ?_
          rw [hfc, List.map_cons, List.mem_cons]
          exact Or.inr hr

/-- Helper: when the successfully downloading, non-skipped sources of a page
are pairwise distinct and none is already mapped, the loop's final mapping
keys are the initial keys followed by exactly those sources. -/
theorem downloadImagesLoop_mapping (net : String → Option Nat) (md5hex8 : String → String)
    (images : List ImageData) :
    ∀ (dl : List DownloadedImage) (m : List (String × String)) (fetched : List String),
      ((images.filter (fun i => !skipImage i && (net i.src).isSome)).map
        ImageData.originalSrc).Nodup →
      (∀ k ∈ (images.filter (fun i => !skipImage i && (net i.src).isSome)).map
        ImageData.originalSrc, k ∉ m.map Prod.fst) →
      ((downloadImagesLoop net md5hex8 images dl m fetched).2.1).map Prod.fst =
        m.map Prod.fst ++
          (images.filter (fun i => !skipImage i && (net i.src).isSome)).map
            ImageData.originalSrc := by
  induction images with
  | nil => intro dl m f _ _; simp [downloadImagesLoop]
  | cons img rest ih =>
    intro dl m f hnd hfresh
    cases hs : skipImage img with
    | true =>
      have hfc : (img :: rest).filter (fun i => !skipImage i && (net i.src).isSome)
          = rest.filter (fun i => !skipImage i && (net i.src).isSome) := by
        simp [List.filter_cons, hs]
      have hstep : downloadImagesLoop net md5hex8 (img :: rest) dl m f
          = downloadImagesLoop net md5hex8 rest dl m f := by
        simp [downloadImagesLoop, hs]
      rw [hfc] at hnd hfresh
      rw [hfc, hstep]
      exact ih dl m f hnd hfresh
    | false =>
      cases hnet : net img.src with
      | none =>
        have hfc : (img :: rest).filter (fun i => !skipImage i && (net i.src).isSome)
            = rest.filter (fun i => !skipImage i && (net i.src).isSome) := by
          simp [List.filter_cons, hnet]
        have hstep : downloadImagesLoop net md5hex8 (img :: rest) dl m f
            = downloadImagesLoop net md5hex8 rest dl m (f ++ [img.src]) := by
          simp [downloadImagesLoop, hs, hnet]
        rw [hfc] at hnd hfresh
        rw [hfc, hstep]
        exact ih dl m _ hnd hfresh
      | some size =>
        have hfc : (img :: rest).filter (fun i => !skipImage i && (net i.src).isSome)
            = img :: rest.filter (fun i => !skipImage i && (net i.src).isSome) := by
          simp [List.filter_cons, hs, hnet]
        rw [hfc] at hnd hfresh
        rw [List.map_cons] at hnd hfresh
        have hnd' := List.nodup_cons.mp hnd
        have hOrigFresh : img.originalSrc ∉ m.map Prod.fst :=
          hfresh img.originalSrc (List.mem_cons.mpr (Or.inl rfl))
        have hfresh2 : ∀ v : String,
            ∀ k ∈ (rest.filter (fun i => !skipImage i && (net i.src).isSome)).map
              ImageData.originalSrc,
              k ∉ (mapSet m img.originalSrc v).map Prod.fst := by
          intro v k hk hmem
          rw [mapSet_fresh m img.originalSrc v hOrigFresh, List.map_append] at hmem
          rcases List.mem_append.mp hmem with h0 | h1
          · exact hfresh k (List.mem_cons.mpr (Or.inr hk)) h0
          · have hkey : k = img.originalSrc := by simpa using h1
            exact hnd'.1 (hkey ▸ hk)
        have hstep : downloadImagesLoop net md5hex8 (img :: rest) dl m f
            = downloadImagesLoop net md5hex8 rest
                (dl ++ [(⟨img.originalSrc,
                  "assets/images/" ++ ("img" ++ toString dl.length ++ "_"
                    ++ md5hex8 img.src ++ "." ++ getImageExtension img.src),
                  "img" ++ toString dl.length ++ "_" ++ md5hex8 img.src
                    ++ "." ++ getImageExtension img.src,
                  size⟩ : DownloadedImage)])
                (mapSet m img.originalSrc
                  ("assets/images/" ++ ("img" ++ toString dl.length ++ "_"
                    ++ md5hex8 img.src ++ "." ++ getImageExtension img.src)))
                (f ++ [img.src]) := by
          simp [downloadImagesLoop, hs, hnet]
        rw [hfc, List.map_cons, hstep,
          ih _ _ _ hnd'.2 (hfresh2 _),
          mapSet_fresh m img.originalSrc _ hOrigFresh, List.map_append]
        simp

/-- C10: the asset download loop skips every image whose src is empty or
begins with `data:` entirely — the loop's outcome is the same as on the
image list with those images removed, a fetch is attempted exactly for the
non-skipped sources, and the mapping never gains a key other than the
non-skipped images' original sources (hence a skipped source is never
rewritten, since `processHtmlContent` substitutes mapped sources only) —
while the remaining sources are still processed. -/
theorem C10_skip_empty_and_data_sources :
    (∀ (net : String → Option Nat) (md5hex8 : String → String)
      (images : List ImageData) (dl : List DownloadedImage)
      (m : List (String × String)) (fetched : List String),
      downloadImagesLoop net md5hex8 images dl m fetched =
        downloadImagesLoop net md5hex8 (images.filter (fun i => !skipImage i)) dl m fetched) ∧
    (∀ (net : String → Option Nat) (md5hex8 : String → String)
      (images : List ImageData) (dl : List DownloadedImage)
      (m : List (String × String)) (fetched : List String),
      (downloadImagesLoop net md5hex8 images dl m fetched).2.2 =
        fetched ++ (images.filter (fun i => !skipImage i)).map ImageData.src) ∧
    (∀ (net : String → Option Nat) (md5hex8 : String → String)
      (images : List ImageData) (dl : List DownloadedImage)
      (m : List (String × String)) (fetched : List String) (k : String),
      k ∈ ((downloadImagesLoop net md5hex8 images dl m fetched).2.1).map Prod.fst →
        k ∈ m.map Prod.fst ∨
          k ∈ (images.filter (fun i => !skipImage i)).map ImageData.originalSrc) :=
  ⟨fun net md5hex8 images dl m fetched =>
      downloadImagesLoop_skips net md5hex8 images dl m fetched,
   fun net md5hex8 images dl m fetched =>
      downloadImagesLoop_fetched net md5hex8 images dl m fetched,
   fun net md5hex8 images dl m fetched k =>
      downloadImagesLoop_keys net md5hex8 images dl m fetched k⟩

/-- Witness for C10: a page with an empty src, a `data:` src and one real
src; only the real one is fetched and mapped. -/
theorem C10_skip_empty_and_data_sources_witness :
    (downloadImagesLoop (fun _ => some 3) (fun _ => "00000000")
        [⟨"", "e.gif"⟩, ⟨"data:image/png;base64,AA", "d.png"⟩,
         ⟨"https://x/a.jpg", "a.jpg"⟩] [] [] []).2.2 =
      [] ++ ([⟨"", "e.gif"⟩, ⟨"data:image/png;base64,AA", "d.png"⟩,
         (⟨"https://x/a.jpg", "a.jpg"⟩ : ImageData)].filter
           (fun i => !skipImage i)).map ImageData.src ∧
    ("a.jpg" ∈ (([] : List (String × String)).map Prod.fst) ∨
      "a.jpg" ∈ ([⟨"", "e.gif"⟩, ⟨"data:image/png;base64,AA", "d.png"⟩,
         (⟨"https://x/a.jpg", "a.jpg"⟩ : ImageData)].filter
           (fun i => !skipImage i)).map ImageData.originalSrc) :=
  ⟨C10_skip_empty_and_data_sources.2.1 (fun _ => some 3) (fun _ => "00000000")
      [⟨"", "e.gif"⟩, ⟨"data:image/png;base64,AA", "d.png"⟩,
       ⟨"https://x/a.jpg", "a.jpg"⟩] [] [] [],
   C10_skip_empty_and_data_sources.2.2 (fun _ => some 3) (fun _ => "00000000")
      [⟨"", "e.gif"⟩, ⟨"data:image/png;base64,AA", "d.png"⟩,
       ⟨"https://x/a.jpg", "a.jpg"⟩] [] [] [] "a.jpg" (by decide)⟩

/-- Concrete page markup for the C3 scenario: three image sources. -/
def c3Html : String :=
  "<html><img src=\"images/a.jpg\"><img src=\"images/b.jpg\"><img src=\"images/c.jpg\"></html>"

/-- Concrete image records for the C3 scenario. -/
def c3Images : List ImageData :=
  [⟨"https://x/images/a.jpg", "images/a.jpg"⟩,
   ⟨"https://x/images/b.jpg", "images/b.jpg"⟩,
   ⟨"https://x/images/c.jpg", "images/c.jpg"⟩]

/-- Concrete network oracle for the C3 scenario: sources a and b download
successfully, source c fails. -/
def c3Net : String → Option Nat :=
  fun s => if s = "https://x/images/c.jpg" then none else some 3

/-- Concrete stand-in for the md5 short hash in the C3 scenario. -/
def c3Hash : String → String := fun _ => "00000000"

/-- C3 counterexample: on a first page (empty prior mapping) referencing 3
sources of which 2 download successfully, the mapping does gain exactly 2
entries, but the written markup is the ORIGINAL markup — it contains no
`assets/images` local path at all, because `downloadPage` writes the
processed HTML before `downloadImages` runs for that page.  This refutes
the claim that the written markup contains the K local paths substituted
and that the rewrite happens after the page's assets are resolved. -/
theorem C3_counterexample :
    (downloadPagePipeline c3Net c3Hash [] c3Html c3Images).1 = c3Html ∧
    jsIncludes (downloadPagePipeline c3Net c3Hash [] c3Html c3Images).1
      "assets/images" = false ∧
    ((downloadPagePipeline c3Net c3Hash [] c3Html c3Images).2.2).length = 2 := by
  refine ⟨rfl, by decide, by decide⟩

/-- C3 amended: the markup written for a page is the page markup rewritten
under the asset mapping as it stands BEFORE that page's assets are
resolved (so with an empty prior mapping it is written unchanged), and the
page's K successful downloads of fresh, pairwise-distinct sources make the
recorded mapping gain exactly K entries — after the markup is written. -/
theorem C3_rewrite_uses_prior_mapping :
    (∀ (net : String → Option Nat) (md5hex8 : String → String)
      (m : List (String × String)) (html : String) (images : List ImageData),
      (downloadPagePipeline net md5hex8 m html images).1 = processHtmlContent m html) ∧
    (∀ html : String, processHtmlContent [] html = html) ∧
    (∀ (net : String → Option Nat) (md5hex8 : String → String)
      (m : List (String × String)) (html : String) (images : List ImageData),
      ((images.filter (fun i => !skipImage i && (net i.src).isSome)).map
        ImageData.originalSrc).Nodup →
      (∀ k ∈ (images.filter (fun i => !skipImage i && (net i.src).isSome)).map
        ImageData.originalSrc, k ∉ m.map Prod.fst) →
      ((downloadPagePipeline net md5hex8 m html images).2.2).length =
        m.length + (images.filter (fun i => !skipImage i && (net i.src).isSome)).length) := by
  refine ⟨fun net md5hex8 m html images => rfl, fun html => rfl,
    fun net md5hex8 m html images hnd hfresh => ?_⟩
  have hkeys := downloadImagesLoop_mapping net md5hex8 images [] m [] hnd hfresh
  have hlen : (((downloadImagesLoop net md5hex8 images [] m []).2.1).map Prod.fst).length
      = (m.map Prod.fst).length +
        ((images.filter (fun i => !skipImage i && (net i.src).isSome)).map
          ImageData.originalSrc).length := by
    rw [hkeys, List.length_append]
  simpa using hlen

/-- Witness for C3's amended theorem at the concrete 3-source scenario. -/
theorem C3_rewrite_uses_prior_mapping_witness :
    ((downloadPagePipeline c3Net c3Hash [] c3Html c3Images).2.2).length =
      ([] : List (String × String)).length +
        (c3Images.filter (fun i => !skipImage i && (c3Net i.src).isSome)).length :=
  C3_rewrite_uses_prior_mapping.2.2 c3Net c3Hash [] c3Html c3Images
    (by decide) (by decide)

/-! ## Checkpoint snapshots of the URL tester

`testAllUrls` and `saveProgress` in src/full_url_tester.js.  The run loop
(lines 104-139) pushes every success onto `workingUrls` and every failure
onto `failedUrls`, and `saveProgress` (lines 151-161) writes

    failedUrls: failedUrls.slice(-20)   // Keep last 20 failures for debugging

so the durable snapshot retains only the 20 most recent failed URLs.
(`saveProgress` in src/url_tester.js lines 155-164 writes no failed-URL
list at all, only counters.)
-/

/-- Counters kept by `testAllUrls`. -/
structure TesterResults where
  tested : Nat
  working : Nat
  failed : Nat

/-- The durable snapshot written by `saveProgress` in full_url_tester.js:
working URLs in full, failed URLs truncated by `slice(-20)`. -/
structure TesterSnapshot where
  workingUrls : List String
  failedUrls : List String
  results : TesterResults

/-- Model of `saveProgress` (src/full_url_tester.js lines 151-161). -/
def saveProgressSnapshot (workingUrls failedUrls : List String)
    (results : TesterResults) : TesterSnapshot :=
  { workingUrls := workingUrls,
    failedUrls := jsSliceLast 20 failedUrls,
    results := results }

/-- Model of the accumulation loop of `testAllUrls` (src/full_url_tester.js
lines 104-139) over the outcome oracle: returns the working list, the
failed list, and the counters. -/
def testAllUrlsLoop (outcome : String → Bool) :
    List String → List String → List String → TesterResults →
    List String × List String × TesterResults
  | [], working, failed, results => (working, failed, results)
  | url :: rest, working, failed, results =>
    if outcome url then
      testAllUrlsLoop outcome rest (working ++ [url]) failed
        { results with tested := results.tested + 1, working := results.working + 1 }
    else
      testAllUrlsLoop outcome rest working (failed ++ [url])
        { results with tested := results.tested + 1, failed := results.failed + 1 }

/-- C8 counterexample: a run of 21 URLs that all fail.  All 21 failures are
seen and counted, but the snapshot's durable failed list holds only the
last 20 entries: the first failed URL `u0` is absent from it.  This refutes
the claim that the snapshot's failed list contains an entry for every
failed URL seen so far in the run. -/
theorem C8_counterexample :
    ((testAllUrlsLoop (fun _ => false)
        ((List.range 21).map (fun i => "u" ++ toString i)) [] [] ⟨0, 0, 0⟩).2.1).length
      = 21 ∧
    "u0" ∈ (testAllUrlsLoop (fun _ => false)
        ((List.range 21).map (fun i => "u" ++ toString i)) [] [] ⟨0, 0, 0⟩).2.1 ∧
    "u0" ∉ (saveProgressSnapshot
        (testAllUrlsLoop (fun _ => false)
          ((List.range 21).map (fun i => "u" ++ toString i)) [] [] ⟨0, 0, 0⟩).1
        (testAllUrlsLoop (fun _ => false)
          ((List.range 21).map (fun i => "u" ++ toString i)) [] [] ⟨0, 0, 0⟩).2.1
        (testAllUrlsLoop (fun _ => false)
          ((List.range 21).map (fun i => "u" ++ toString i)) [] [] ⟨0, 0, 0⟩).2.2).failedUrls := by
  refine ⟨by decide, by decide, by decide⟩

/-- Helper: the accumulation loop appends each failed URL to the failed
list and counts it. -/
theorem testAllUrlsLoop_failed (outcome : String → Bool) (urls : List String) :
    ∀ (working failed : List String) (results : TesterResults),
      (testAllUrlsLoop outcome urls working failed results).2.1 =
        failed ++ urls.filter (fun u => !outcome u) ∧
      ((testAllUrlsLoop outcome urls working failed results).2.2).failed =
        results.failed + (urls.filter (fun u => !outcome u)).length := by
  induction urls with
  | nil => intro working failed results; simp [testAllUrlsLoop]
  | cons url rest ih =>
    intro working failed results
    cases ho : outcome url with
    | true =>
      have h := ih (working ++ [url]) failed
        { results with tested := results.tested + 1, working := results.working + 1 }
      simpa [testAllUrlsLoop, ho, List.filter_cons] using h
    | false =>
      have h := ih working (failed ++ [url])
        { results with tested := results.tested + 1, failed := results.failed + 1 }
      constructor
      · rw [show (testAllUrlsLoop outcome (url :: rest) working failed results)
            = testAllUrlsLoop outcome rest working (failed ++ [url])
              { results with tested := results.tested + 1, failed := results.failed + 1 }
            by simp [testAllUrlsLoop, ho]]
        rw [h.1]
        simp [List.filter_cons, ho]
      · rw [show (testAllUrlsLoop outcome (url :: rest) working failed results)
            = testAllUrlsLoop outcome rest working (failed ++ [url])
              { results with tested := results.tested + 1, failed := results.failed + 1 }
            by simp [testAllUrlsLoop, ho]]
        rw [h.2]
        simp [List.filter_cons, ho]
        omega

/-- C8 amended: every failure is recorded in the run's in-memory failed
list and counted in the snapshot's `failed` counter, but the snapshot's
durable failed-URL list holds only the 20 most recent failed entries — it
equals the full list only when at most 20 failures have occurred
(src/url_tester.js additionally writes no failed-URL list at all). -/
theorem C8_snapshot_keeps_last_twenty :
    (∀ (outcome : String → Bool) (urls : List String),
      (testAllUrlsLoop outcome urls [] [] ⟨0, 0, 0⟩).2.1 =
        urls.filter (fun u => !outcome u) ∧
      ((testAllUrlsLoop outcome urls [] [] ⟨0, 0, 0⟩).2.2).failed =
        (urls.filter (fun u => !outcome u)).length) ∧
    (∀ (working failed : List String) (results : TesterResults),
      (saveProgressSnapshot working failed results).failedUrls =
        failed.drop (failed.length - 20)) ∧
    (∀ (working failed : List String) (results : TesterResults),
      failed.length ≤ 20 →
      (saveProgressSnapshot working failed results).failedUrls = failed) := by
  refine ⟨fun outcome urls => ?_, fun working failed results => rfl,
    fun working failed results hle => ?_⟩
  · have h := testAllUrlsLoop_failed outcome urls [] [] ⟨0, 0, 0⟩
    simpa using h
  · show jsSliceLast 20 failed = failed
    unfold jsSliceLast
    have : failed.length - 20 = 0 := by omega
    rw [this, List.drop_zero]

/-- Witness for C8's amended theorem: a three-URL run in which the middle
URL fails; the snapshot keeps the single failure. -/
theorem C8_snapshot_keeps_last_twenty_witness :
    ((testAllUrlsLoop (fun u => !(u == "b/")) ["a/", "b/", "c/"] [] [] ⟨0, 0, 0⟩).2.1 =
        ["a/", "b/", "c/"].filter (fun u => !(!(u == "b/"))) ∧
      ((testAllUrlsLoop (fun u => !(u == "b/")) ["a/", "b/", "c/"] [] [] ⟨0, 0, 0⟩).2.2).failed =
        (["a/", "b/", "c/"].filter (fun u => !(!(u == "b/")))).length) ∧
    (saveProgressSnapshot ["a/", "c/"] ["b/"] ⟨3, 2, 1⟩).failedUrls = ["b/"] :=
  ⟨C8_snapshot_keeps_last_twenty.1 (fun u => !(u == "b/")) ["a/", "b/", "c/"],
   C8_snapshot_keeps_last_twenty.2.2 ["a/", "c/"] ["b/"] ⟨3, 2, 1⟩ (by decide)⟩

end ChiswickMirror
